import Mathlib

/-!
Verification of the quiz orchestration core of the top5-value-quiz
repository.  The definitions below are shallow embeddings of the
TypeScript/Svelte source: `handleAnswer`, `setCurrentQuestion`,
`fetchNextPhase2Question`, `evaluateAnswers`, `generateReviewText` and
`determinePhaseAndQuestion` from `src/routes/+page.svelte`,
`handleRankSelect` from `src/lib/components/QuestionCard.svelte`,
the stores and `initializeScores`/`resetQuiz` from `src/lib/stores.ts`,
and the request validation performed by the API route handlers.
Asynchronous remote calls are embedded by passing the outcome of the
call as an explicit argument; the JSON / localStorage string codecs are
modelled as faithful typed storage.
-/

/-- Modelled from the spec: the Value Catalog (`PROFESSIONAL_VALUES` from
`$lib/constants`, a file not present in the source tree).  The spec fixes
its shape: a static, immutable ordered list of exactly 52 distinct value
names, containing in particular "Autonomy" and "Security". -/
def PROFESSIONAL_VALUES : List String :=
  ["Achievement", "Adventure", "Advocacy", "Autonomy", "Balance",
   "Belonging", "Challenge", "Collaboration", "Community", "Compassion",
   "Competence", "Contribution", "Creativity", "Curiosity", "Dedication",
   "Dependability", "Diversity", "Efficiency", "Empathy", "Equality",
   "Excellence", "Fairness", "Flexibility", "Friendship", "Growth",
   "Harmony", "Honesty", "Humility", "Impact", "Independence",
   "Influence", "Integrity", "Kindness", "Leadership", "Learning",
   "Loyalty", "Mastery", "Mentorship", "Optimism", "Orderliness",
   "Ownership", "Patience", "Prestige", "Professionalism", "Recognition",
   "Reliability", "Resilience", "Security", "Service", "Stability",
   "Teamwork", "Wealth"]

/-- The `QuizPhase` union type from `src/lib/types` (values as used in
`stores.ts` and `+page.svelte`). -/
inductive QuizPhase
  | start
  | phase1
  | phase2
  | evaluating
  | results
  | error
deriving DecidableEq, Repr

/-- The string stored in `localStorage` for a phase (JS persists the raw
string value of the union). -/
def QuizPhase.toStoreString : QuizPhase → String
  | .start => "start"
  | .phase1 => "phase1"
  | .phase2 => "phase2"
  | .evaluating => "evaluating"
  | .results => "results"
  | .error => "error"

/-- `Phase1Option`: an option of a pre-authored simple-choice question,
carrying its `value_area_hint` list. -/
structure Phase1Option where
  text : String
  value_area_hint : List String
deriving DecidableEq, Repr

/-- `Phase2Option`: an option of a generated question (only a `text`). -/
structure Phase2Option where
  text : String
deriving DecidableEq, Repr

/-- The `type` discriminator of a question. -/
inductive QuestionType
  | simple_choice
  | forced_choice
  | ranking
deriving DecidableEq, Repr

/-- A question as consumed by `handleAnswer`: the structurally
overlapping object with `id`, `type`, `text`, `options` and
`values_being_compared` (empty for phase-1 questions). -/
structure Question where
  id : String
  text : String
  qtype : QuestionType
  options : List Phase2Option
  values_being_compared : List String
deriving DecidableEq, Repr

/-- The `selectedOption` argument of `handleAnswer`:
`Phase1Option | Phase2Option | Phase2Option[]`. -/
inductive SelectedOption
  | p1 (o : Phase1Option)
  | p2 (o : Phase2Option)
  | ranked (os : List Phase2Option)
deriving DecidableEq, Repr

/-- The `answer` payload of an `AnswerRecord`: `string | string[]`. -/
inductive AnswerPayload
  | single (t : String)
  | multi (ts : List String)
deriving DecidableEq, Repr

/-- `AnswerRecord` from `src/lib/types`, as built by `handleAnswer`. -/
structure AnswerRecord where
  questionId : String
  questionText : String
  questionType : QuestionType
  answer : AnswerPayload
  valuesInvolved : List String
  timestamp : Nat
deriving DecidableEq, Repr

/-- `ValueScores`: the JS object mapping value name to integer score,
embedded as an association list in key-insertion order. -/
abbrev ValueScores := List (String × Int)

/-- `scores.hasOwnProperty(k)`. -/
def hasKey (sc : ValueScores) (k : String) : Bool :=
  sc.any (fun p => p.1 == k)

/-- `scores[k] += d` guarded by key presence in the callers: add `d` to
every entry whose key is `k` (keys are unique in any state built from
`initializeScores`, so at most one entry changes). -/
def addTo (sc : ValueScores) (k : String) (d : Int) : ValueScores :=
  sc.map (fun p => if p.1 == k then (p.1, p.2 + d) else p)

/-- `scores[k]` read (0 when the key is absent, which callers rule out
via `hasOwnProperty`). -/
def scoreOf (sc : ValueScores) (k : String) : Int :=
  ((sc.find? (fun p => p.1 == k)).map Prod.snd).getD 0

/-- The key list of a score object. -/
def keysOf (sc : ValueScores) : List String :=
  sc.map Prod.fst

/-- Total of all scores in the tally. -/
def scoreSum (sc : ValueScores) : Int :=
  (sc.map Prod.snd).sum

/-- JS `String.prototype.includes`: substring containment test, used by
`handleAnswer` to resolve an option text to a compared value. -/
def jsIncludes (s sub : String) : Bool :=
  (List.range (s.toList.length + 1)).any
    (fun i => sub.toList.isPrefixOf (s.toList.drop i))

/-- `initializeScores` from `src/lib/stores.ts`: every catalog value
mapped to 0. -/
def initializeScores : ValueScores :=
  PROFESSIONAL_VALUES.map (fun v => (v, (0 : Int)))

/-- Points awarded to the option at 0-based position `i` of a ranking
answer: `Math.max(0, 4 - rank)` with `rank = i + 1`. -/
def rankPoints (i : Nat) : Int :=
  max 0 (4 - ((i : Int) + 1))

/-- One iteration of the `rankedOptions.forEach` loop of `handleAnswer`
(lines 351-356): resolve the option text against the compared values
and add `rankPoints` for its 0-based position. -/
def rankStep (cvs : List String) (sc : ValueScores)
    (p : Nat × Phase2Option) : ValueScores :=
  match cvs.find? (fun v => jsIncludes p.2.text v) with
  | some v => if hasKey sc v then addTo sc v (rankPoints p.1) else sc
  | none => sc

/-- The ranking branch of the scoring logic: fold `rankStep` over the
ranked options paired with their 0-based positions. -/
def applyRanking (cvs : List String) (scores : ValueScores)
    (os : List Phase2Option) : ValueScores :=
  (os.enum).foldl (rankStep cvs) scores

/-- The scoring section of `handleAnswer` (`+page.svelte` lines 336-358):
branches on the question type and the shape of the selected option and
returns the updated copy of the tally. -/
def applyScoring (q : Question) (sel : SelectedOption)
    (scores : ValueScores) : ValueScores :=
  match q.qtype, sel with
  | .simple_choice, .p1 o =>
      o.value_area_hint.foldl
        (fun sc v => if hasKey sc v then addTo sc v 1 else sc) scores
  | .forced_choice, .p2 o =>
      let comparedValues := q.values_being_compared
      let chosenValue := comparedValues.find? (fun v => jsIncludes o.text v)
      let otherValue := comparedValues.find? (fun v => chosenValue != some v)
      let s1 := match chosenValue with
        | some c => if hasKey scores c then addTo scores c 2 else scores
        | none => scores
      match otherValue with
        | some ov => if hasKey s1 ov then addTo s1 ov (-1) else s1
        | none => s1
  | .ranking, .ranked os => applyRanking q.values_being_compared scores os
  | _, _ => scores

/-- The history-record section of `handleAnswer` (lines 360-374): the
`answer` payload and `valuesInvolved` of the record. -/
def answerPayloadOf (q : Question) (sel : SelectedOption) :
    AnswerPayload × List String :=
  match q.qtype, sel with
  | .simple_choice, .p1 o => (.single o.text, o.value_area_hint)
  | .forced_choice, .p2 o => (.single o.text, q.values_being_compared)
  | .ranking, .ranked os => (.multi (os.map (·.text)), q.values_being_compared)
  | _, _ => (.single "Unknown", [])

/-- The orchestrator state: the stores of `src/lib/stores.ts` (newer
version, with persisted phase and history) together with the
component-local variables `currentQuestion` and `isLoading` of
`+page.svelte`. -/
structure QuizState where
  quizPhase : QuizPhase
  valueScores : ValueScores
  currentQuestionIndex : Nat
  currentPhase2Question : Option Question
  errorMessage : Option String
  retryPossible : Bool
  quizHistory : List AnswerRecord
  evaluatedTop5 : Option (List String)
  reviewText : Option String
  currentQuestion : Option Question
  isLoading : Bool
deriving DecidableEq, Repr

/-- `resetQuiz` from `src/lib/stores.ts` (newer version). -/
def resetQuiz : QuizState :=
  { quizPhase := .start
    valueScores := initializeScores
    currentQuestionIndex := 0
    currentPhase2Question := none
    errorMessage := none
    retryPossible := false
    quizHistory := []
    evaluatedTop5 := none
    reviewText := none
    currentQuestion := none
    isLoading := false }

/-- `setCurrentQuestion` from `+page.svelte` (lines 129-146).  The
phase-2 branch without a held question triggers an asynchronous fetch
and leaves `currentQuestion` unchanged; the fetch itself is modelled
separately. -/
def setCurrentQuestion (P1 : Nat) (phase1Questions : List Question)
    (s : QuizState) : QuizState :=
  if s.quizPhase == .phase1 && decide (0 < s.currentQuestionIndex)
      && decide (s.currentQuestionIndex ≤ P1) then
    { s with currentQuestion := phase1Questions.get? (s.currentQuestionIndex - 1) }
  else if s.quizPhase == .phase2 && s.currentPhase2Question.isSome then
    { s with currentQuestion := s.currentPhase2Question }
  else if s.quizPhase == .phase2 && s.currentPhase2Question.isNone
      && !s.isLoading then
    s
  else
    { s with currentQuestion := none }

/-- `handleAnswer` from `+page.svelte` (lines 332-405): guard, scoring,
history append, and quiz advancement.  `P1` and `TOTAL` are
`TOTAL_PHASE_1_QUESTIONS` and `TOTAL_QUESTIONS`; `now` is `Date.now()`. -/
def handleAnswer (P1 TOTAL : Nat) (phase1Questions : List Question)
    (now : Nat) (s : QuizState) (sel : SelectedOption) : QuizState :=
  match s.currentQuestion with
  | none => s
  | some q =>
    if s.isLoading || s.retryPossible then s
    else
      let updatedScores := applyScoring q sel s.valueScores
      let pv := answerPayloadOf q sel
      let record : AnswerRecord :=
        { questionId := q.id
          questionText := q.text
          questionType := q.qtype
          answer := pv.1
          valuesInvolved := pv.2
          timestamp := now }
      let s1 := { s with valueScores := updatedScores
                         quizHistory := s.quizHistory ++ [record] }
      let nextIndex := s1.currentQuestionIndex + 1
      if nextIndex ≤ P1 then
        setCurrentQuestion P1 phase1Questions
          { s1 with currentQuestionIndex := nextIndex, quizPhase := .phase1 }
      else if nextIndex ≤ TOTAL then
        { s1 with currentQuestionIndex := nextIndex
                  quizPhase := .phase2
                  currentPhase2Question := none }
      else
        { s1 with quizPhase := .evaluating
                  currentQuestionIndex := nextIndex
                  currentQuestion := none
                  currentPhase2Question := none }

/-- Outcome of an asynchronous remote call, injected as an argument:
either a parsed response payload or a thrown error carrying the HTTP
status used by the catch blocks to classify the failure. -/
inductive FetchOutcome (α : Type)
  | ok (payload : α)
  | err (status : Nat) (message : String)
deriving DecidableEq, Repr

/-- JS truthiness of an optional string (`undefined` and `""` are
falsy). -/
def jsTruthy : Option String → Bool
  | none => false
  | some t => t != ""

/-- `fetchNextPhase2Question` from `+page.svelte` (lines 147-196): the
early-return phase guard, the loading/error/retry preamble, and the
success and catch paths.  On success `setCurrentQuestion` runs before
the `finally` block clears `isLoading`. -/
def fetchNextPhase2Question (P1 : Nat) (phase1Questions : List Question)
    (outcome : FetchOutcome Question) (s : QuizState) : QuizState :=
  if s.quizPhase != .phase2 then s
  else
    let s := { s with isLoading := true, errorMessage := none,
                      retryPossible := false }
    match outcome with
    | .ok q =>
        let s := setCurrentQuestion P1 phase1Questions
          { s with currentPhase2Question := some q }
        { s with isLoading := false }
    | .err status msg =>
        let m := if status == 429 then
            "Rate limit reached. Please wait a moment and try again."
          else "Failed to get next question: " ++ msg
        let s := { s with errorMessage := some m, retryPossible := true }
        { s with isLoading := false }

/-- `generateReviewText` from `+page.svelte` (lines 256-317): the guard
requiring a held evaluation result, the review call, the
`!result.reviewText` validation, and the success/catch paths.  The
phase moves to `results` only in the success path. -/
def generateReviewText (outcome : FetchOutcome (Option String))
    (s : QuizState) : QuizState :=
  if s.evaluatedTop5.isNone then
    { s with errorMessage := some "Analysis must complete before generating insights."
             retryPossible := true
             isLoading := false }
  else
    let s := { s with isLoading := true, errorMessage := none,
                      retryPossible := false }
    match outcome with
    | .ok r =>
        if jsTruthy r then
          { s with reviewText := r
                   quizPhase := .results
                   isLoading := false }
        else
          { s with errorMessage := some "Failed to generate review: Invalid review data received from server."
                   retryPossible := true
                   isLoading := false }
    | .err status msg =>
        let m := if status == 429 then
            "Rate limit reached generating review. Please wait and try again."
          else "Failed to generate review: " ++ msg
        { s with errorMessage := some m, retryPossible := true,
                 isLoading := false }

/-- JS truthiness check plus length test performed on the evaluation
payload: `!result.top5Values || result.top5Values.length !== 5`
(an absent field is falsy; an array of any length is truthy). -/
def validTop5Payload : Option (List String) → Bool
  | none => false
  | some t5 => t5.length == 5

/-- `evaluateAnswers` from `+page.svelte` (lines 203-253): the
evaluation call, its payload validation, and — only on success — the
chained review step.  A failure leaves the phase untouched and arms the
retry flag. -/
def evaluateAnswers (evalOutcome : FetchOutcome (Option (List String)))
    (reviewOutcome : FetchOutcome (Option String))
    (s : QuizState) : QuizState :=
  let s := { s with isLoading := true, errorMessage := none,
                    retryPossible := false }
  match evalOutcome with
  | .ok r =>
      if validTop5Payload r then
        generateReviewText reviewOutcome { s with evaluatedTop5 := r }
      else
        { s with errorMessage := some "Failed to analyze results: Invalid evaluation data received from server."
                 retryPossible := true
                 isLoading := false }
  | .err status msg =>
      let m := if status == 429 then
          "Rate limit reached during analysis. Please wait and try again."
        else "Failed to analyze results: " ++ msg
      { s with errorMessage := some m, retryPossible := true,
               isLoading := false }

/-- The next remote action the orchestrator decides to start (the
asynchronous calls triggered by `determinePhaseAndQuestion` and by the
user-facing retry buttons). -/
inductive NextAction
  | idle
  | fetchQuestion
  | runEvaluation
  | runReview
deriving DecidableEq, Repr

/-- `determinePhaseAndQuestion` from `+page.svelte` (lines 413-467):
returns the updated synchronous state together with the asynchronous
action it triggers (at most one). -/
def determinePhaseAndQuestion (P1 TOTAL : Nat)
    (phase1Questions : List Question) (s : QuizState) :
    QuizState × NextAction :=
  let s := if !s.isLoading && !s.retryPossible then
      { s with errorMessage := none }
    else s
  match s.quizPhase with
  | .start | .results | .error => ({ s with currentQuestion := none }, .idle)
  | .evaluating =>
      let s := { s with currentQuestion := none }
      if !s.isLoading && !s.retryPossible then
        if s.evaluatedTop5.isSome && !jsTruthy s.reviewText then
          (s, .runReview)
        else if s.evaluatedTop5.isNone then
          (s, .runEvaluation)
        else
          ({ s with quizPhase := .results }, .idle)
      else (s, .idle)
  | .phase1 =>
      if decide (0 < s.currentQuestionIndex)
          && decide (s.currentQuestionIndex ≤ P1)
          && !phase1Questions.isEmpty then
        ({ s with currentQuestion := phase1Questions.get? (s.currentQuestionIndex - 1) },
         .idle)
      else
        ({ s with currentQuestion := none }, .idle)
  | .phase2 =>
      if decide (P1 < s.currentQuestionIndex)
          && decide (s.currentQuestionIndex ≤ TOTAL) then
        if s.currentPhase2Question.isNone && !s.isLoading
            && !s.retryPossible then
          (s, .fetchQuestion)
        else
          match s.currentPhase2Question with
          | some q => ({ s with currentQuestion := some q }, .idle)
          | none => (s, .idle)
      else
        ({ s with currentQuestion := none }, .idle)

/-- The retry dispatch of the evaluating-phase error alert
(`+page.svelte` template lines 586-596): when the evaluation result is
held and the review text is missing the button runs `retryReview`
(review step only), otherwise `retryEvaluation`. -/
def retryActionFor (s : QuizState) : NextAction :=
  if s.evaluatedTop5.isSome && !jsTruthy s.reviewText then .runReview
  else .runEvaluation


/-- Upsert into the `selectedRanking` object keyed by rank
(`selectedRanking[rank] = option`): JS object keys are unique. -/
def upsertRank (m : List (Nat × Phase2Option)) (rank : Nat)
    (o : Phase2Option) : List (Nat × Phase2Option) :=
  if m.any (fun p => p.1 == rank) then
    m.map (fun p => if p.1 == rank then (rank, o) else p)
  else m ++ [(rank, o)]

/-- Insert an entry into a rank-sorted list (models the
`sort(([rankA], [rankB]) => parseInt(rankA) - parseInt(rankB))` step). -/
def insertByRank (p : Nat × Phase2Option) :
    List (Nat × Phase2Option) → List (Nat × Phase2Option)
  | [] => [p]
  | q :: qs => if p.1 ≤ q.1 then p :: q :: qs else q :: insertByRank p qs

/-- Sort the ranking entries by their rank key. -/
def sortByRank : List (Nat × Phase2Option) → List (Nat × Phase2Option)
  | [] => []
  | p :: ps => insertByRank p (sortByRank ps)

/-- `handleRankSelect` from `QuestionCard.svelte` (lines 18-37): remove
the option from any other rank, assign it to `rank`, and only once
every rank is assigned emit the full ordering through `onAnswer`
(`none` means no answer was submitted). -/
def handleRankSelect (optionCount : Nat)
    (selectedRanking : List (Nat × Phase2Option))
    (option : Phase2Option) (rank : Nat) :
    List (Nat × Phase2Option) × Option (List Phase2Option) :=
  let cleaned := selectedRanking.filter
    (fun p => !(p.2 == option && p.1 != rank))
  let updated := upsertRank cleaned rank option
  if updated.length == optionCount then
    ([], some ((sortByRank updated).map Prod.snd))
  else (updated, none)

/-- The parsed body of a generate-question response, before any
server-side validation (`GenerateQuestionResponse` with the raw `type`
string). -/
structure GeneratedQuestionPayload where
  id : String
  qtype : String
  text : String
  options : List Phase2Option
  values_being_compared : List String
deriving DecidableEq, Repr

/-- The receipt validation of the schema-version generate-question
handler (`src/unnamed/part_000` lines 261-282): after parsing, missing
fields only produce a console warning; the sole check that fails the
request is that every entry of `values_being_compared` is in
`PROFESSIONAL_VALUES`. -/
def validateGeneratedQuestion (p : GeneratedQuestionPayload) : Bool :=
  p.values_being_compared.all (fun v => PROFESSIONAL_VALUES.contains v)

/-- The receipt validation of the earlier generate-question handler
(`src/unnamed/part_000` lines 452-473): required fields truthy, `type`
in the enum, and both arrays of length at least 2. -/
def validateGeneratedQuestionLegacy (p : GeneratedQuestionPayload) : Bool :=
  p.id != "" && p.qtype != "" && p.text != "" &&
  (p.qtype == "forced_choice" || p.qtype == "ranking") &&
  decide (2 ≤ p.options.length) &&
  decide (2 ≤ p.values_being_compared.length)

/-- Modelled from the spec (section 4.3), for comparison with the code:
the full phase-2 receipt contract the claim asserts — type in the enum,
option count exactly 2 for forced_choice and 3-4 for ranking, every
compared value in the catalog, and no duplicate compared values. -/
def questionContractOk (p : GeneratedQuestionPayload) : Bool :=
  (p.qtype == "forced_choice" || p.qtype == "ranking") &&
  (if p.qtype == "forced_choice" then p.options.length == 2
   else decide (3 ≤ p.options.length) && decide (p.options.length ≤ 4)) &&
  p.values_being_compared.all (fun v => PROFESSIONAL_VALUES.contains v) &&
  decide p.values_being_compared.Nodup

/-- The request guard of the evaluate-answers handler
(`src/unnamed/part_000` lines 566-568): a missing or empty history is a
400 before any remote call. -/
def evaluationRequestAccepted (history : List AnswerRecord) : Bool :=
  !history.isEmpty

/-- The response validation of the evaluate-answers handler
(`src/unnamed/part_000` lines 657-681): `top5Values` must be present,
have length exactly 5, and every entry must be in
`PROFESSIONAL_VALUES`; nothing checks distinctness. -/
def validateEvaluationResult (r : Option (List String)) : Bool :=
  match r with
  | none => false
  | some t5 =>
      t5.length == 5 && t5.all (fun v => PROFESSIONAL_VALUES.contains v)

/-- Modelled from the spec, for comparison with the code: the
evaluation-result contract the claim asserts — exactly 5 distinct
catalog values. -/
def evaluationContractOk (r : Option (List String)) : Bool :=
  match r with
  | none => false
  | some t5 =>
      t5.length == 5 && t5.all (fun v => PROFESSIONAL_VALUES.contains v) &&
      decide t5.Nodup

/-- `PersistedSnapshot`: the four localStorage keys written by the
subscriptions in `src/unnamed/part_003` (`quizPhase`, `valueScores`,
`currentQuestionIndex`, `quizHistory`).  `none` models an absent key;
the JSON / decimal string codecs are modelled as faithful typed
storage.  The volatile stores (`evaluatedTop5`, `reviewText`) have no
key here because no subscription writes them. -/
structure PersistedSnapshot where
  quizPhase : Option String
  valueScores : Option ValueScores
  currentQuestionIndex : Option Nat
  quizHistory : Option (List AnswerRecord)
deriving DecidableEq, Repr

/-- The snapshot written after a mutation: every persisted store
mirrors its current value (the phase as its raw string). -/
def persistSnapshot (s : QuizState) : PersistedSnapshot :=
  { quizPhase := some s.quizPhase.toStoreString
    valueScores := some s.valueScores
    currentQuestionIndex := some s.currentQuestionIndex
    quizHistory := some s.quizHistory }

/-- Restore of the phase at startup: `storedPhase || 'start'` (the raw
stored string is used as the phase). -/
def restoredPhase (snap : PersistedSnapshot) : String :=
  match snap.quizPhase with
  | some p => if p != "" then p else "start"
  | none => "start"

/-- Restore of the tally at startup:
`storedScores ? JSON.parse(storedScores) : initializeScores()`. -/
def restoredScores (snap : PersistedSnapshot) : ValueScores :=
  snap.valueScores.getD initializeScores

/-- Restore of the position at startup:
`storedCurrentQuestionIndex ? parseInt(storedCurrentQuestionIndex, 10) : 0`. -/
def restoredIndex (snap : PersistedSnapshot) : Nat :=
  snap.currentQuestionIndex.getD 0

/-- Restore of the history at startup:
`storedHistory ? JSON.parse(storedHistory) : []`. -/
def restoredHistory (snap : PersistedSnapshot) : List AnswerRecord :=
  snap.quizHistory.getD []

/-- Example forced-choice question used by concrete witnesses: the
scenario of the spec (Autonomy vs Security). -/
def exForcedQuestion : Question :=
  { id := "q-fc"
    text := "Which matters more to you?"
    qtype := .forced_choice
    options := [⟨"Autonomy"⟩, ⟨"Security"⟩]
    values_being_compared := ["Autonomy", "Security"] }

/-- Example state presenting `exForcedQuestion` over a fresh tally. -/
def exForcedState : QuizState :=
  { resetQuiz with quizPhase := .phase1
                   currentQuestionIndex := 1
                   currentQuestion := some exForcedQuestion }

/-- Example ranking question used by concrete witnesses. -/
def exRankQuestion : Question :=
  { id := "q-rank"
    text := "Rank these aspects of a role."
    qtype := .ranking
    options := [⟨"Autonomy"⟩, ⟨"Balance"⟩, ⟨"Creativity"⟩]
    values_being_compared := ["Autonomy", "Balance", "Creativity"] }

/-- Example state presenting `exRankQuestion`. -/
def exRankState : QuizState :=
  { resetQuiz with quizPhase := .phase2
                   currentQuestionIndex := 7
                   currentQuestion := some exRankQuestion }

/-- Example forced-choice question whose option texts echo no compared
value (the unresolved-match edge case). -/
def exNoMatchQuestion : Question :=
  { id := "q-nm"
    text := "Choose a workplace."
    qtype := .forced_choice
    options := [⟨"A calm office"⟩, ⟨"A busy studio"⟩]
    values_being_compared := ["Autonomy", "Security"] }

/-- Example state presenting `exNoMatchQuestion`. -/
def exNoMatchState : QuizState :=
  { resetQuiz with quizPhase := .phase2
                   currentQuestionIndex := 6
                   currentQuestion := some exNoMatchQuestion }

/-- Example state in the evaluating phase. -/
def exEvalState : QuizState :=
  { resetQuiz with quizPhase := .evaluating
                   currentQuestionIndex := 11 }

/-- Example mid-phase-2 state. -/
def exPhase2State : QuizState :=
  { resetQuiz with quizPhase := .phase2
                   currentQuestionIndex := 6 }

/-- Example top-5 evaluation payload. -/
def exTop5 : List String :=
  ["Autonomy", "Security", "Balance", "Creativity", "Teamwork"]

/-- A generated-question payload violating the claimed receipt contract:
`ranking` type with only 2 options and a duplicated compared value (all
entries are catalog members). -/
def exBadGeneratedQuestion : GeneratedQuestionPayload :=
  { id := "q-bad"
    qtype := "ranking"
    text := "Rank these."
    options := [⟨"Option one"⟩, ⟨"Option two"⟩]
    values_being_compared := ["Autonomy", "Autonomy"] }

/-- An evaluation payload of 5 non-distinct catalog values. -/
def exBadTop5 : List String :=
  ["Autonomy", "Autonomy", "Autonomy", "Autonomy", "Autonomy"]

theorem addTo_cons (p : String × Int) (t : ValueScores) (k : String)
    (d : Int) :
    addTo (p :: t) k d =
      (if p.1 == k then (p.1, p.2 + d) else p) :: addTo t k d := rfl

theorem scoreOf_cons (p : String × Int) (t : ValueScores) (j : String) :
    scoreOf (p :: t) j = if p.1 == j then p.2 else scoreOf t j := by
  by_cases h : p.1 == j <;> simp [scoreOf, List.find?_cons, h]

theorem hasKey_cons (p : String × Int) (t : ValueScores) (j : String) :
    hasKey (p :: t) j = ((p.1 == j) || hasKey t j) := by
  simp [hasKey]

theorem keysOf_addTo (sc : ValueScores) (k : String) (d : Int) :
    keysOf (addTo sc k d) = keysOf sc := by
  induction sc with
  | nil => rfl
  | cons p t ih =>
    rw [addTo_cons]
    by_cases h : p.1 == k <;> simp [keysOf, h] at ih ⊢ <;> exact ih

theorem hasKey_addTo (sc : ValueScores) (k j : String) (d : Int) :
    hasKey (addTo sc k d) j = hasKey sc j := by
  induction sc with
  | nil => rfl
  | cons p t ih =>
    rw [addTo_cons, hasKey_cons, hasKey_cons, ih]
    by_cases h : p.1 == k <;> simp [h]

theorem hasKey_iff_mem (sc : ValueScores) (k : String) :
    hasKey sc k = true ↔ k ∈ keysOf sc := by
  unfold hasKey keysOf
  simp [List.any_eq_true, List.mem_map]

theorem scoreOf_addTo_self (sc : ValueScores) (k : String) (d : Int)
    (h : hasKey sc k = true) :
    scoreOf (addTo sc k d) k = scoreOf sc k + d := by
  induction sc with
  | nil => simp [hasKey] at h
  | cons p t ih =>
    rw [addTo_cons]
    by_cases hp : p.1 == k
    · simp [scoreOf_cons, hp]
    · have ht : hasKey t k = true := by
        rw [hasKey_cons] at h
        simpa [hp] using h
      simp [scoreOf_cons, hp]
      exact ih ht

theorem scoreOf_addTo_ne (sc : ValueScores) (k j : String) (d : Int)
    (h : j ≠ k) :
    scoreOf (addTo sc k d) j = scoreOf sc j := by
  induction sc with
  | nil => rfl
  | cons p t ih =>
    rw [addTo_cons]
    by_cases hp : p.1 == k
    · have hj : (p.1 == j) = false := by
        have hpk : p.1 = k := by simpa using hp
        simp [hpk]
        exact fun hh => h hh.symm
      simp [scoreOf_cons, hj, hp, ih]
    · by_cases hj : p.1 == j <;> simp [scoreOf_cons, hj, hp, ih]

theorem addTo_of_hasKey_eq_false (sc : ValueScores) (k : String) (d : Int)
    (h : hasKey sc k = false) : addTo sc k d = sc := by
  induction sc with
  | nil => rfl
  | cons p t ih =>
    rw [hasKey_cons, Bool.or_eq_false_iff] at h
    rw [addTo_cons, h.1, ih h.2]
    simp

theorem scoreSum_cons (p : String × Int) (t : ValueScores) :
    scoreSum (p :: t) = p.2 + scoreSum t := by
  simp [scoreSum]

theorem scoreSum_addTo (sc : ValueScores) (k : String) (d : Int)
    (hnd : (keysOf sc).Nodup) (h : hasKey sc k = true) :
    scoreSum (addTo sc k d) = scoreSum sc + d := by
  induction sc with
  | nil => simp [hasKey] at h
  | cons p t ih =>
    have hnd2 : (keysOf t).Nodup ∧ p.1 ∉ keysOf t := by
      simp [keysOf, List.nodup_cons] at hnd
      exact ⟨hnd.2, by simpa [keysOf] using hnd.1⟩
    rw [addTo_cons]
    by_cases hp : p.1 == k
    · have hpk : p.1 = k := by simpa using hp
      have htk : hasKey t k = false := by
        rw [← Bool.not_eq_true, hasKey_iff_mem]
        rw [hpk] at hnd2
        exact hnd2.2
      rw [addTo_of_hasKey_eq_false t k d htk]
      simp [scoreSum_cons, hp]
      ring
    · have ht : hasKey t k = true := by
        rw [hasKey_cons] at h
        simpa [hp] using h
      simp [scoreSum_cons, hp, ih hnd2.1 ht]
      ring

theorem enumFrom_cons (n : Nat) (o : Phase2Option)
    (os : List Phase2Option) :
    List.enumFrom n (o :: os) = (n, o) :: List.enumFrom (n + 1) os := rfl

theorem rankFold_scoreSum (cvs : List String) (os : List Phase2Option) :
    ∀ (n : Nat) (sc : ValueScores),
      (keysOf sc).Nodup →
      (∀ o ∈ os, ∃ v, cvs.find? (fun w => jsIncludes o.text w) = some v ∧
          hasKey sc v = true) →
      scoreSum ((List.enumFrom n os).foldl (rankStep cvs) sc) =
        scoreSum sc +
          ((List.range os.length).map (fun j => rankPoints (n + j))).sum := by
  induction os with
  | nil => intro n sc _ _; simp [List.enumFrom]
  | cons o os2 ih =>
    intro n sc hnd hres
    obtain ⟨v, hv, hk⟩ := hres o (List.mem_cons_self o os2)
    have hstep : rankStep cvs sc (n, o) = addTo sc v (rankPoints n) := by
      simp [rankStep, hv, hk]
    have hnd2 : (keysOf (addTo sc v (rankPoints n))).Nodup := by
      rw [keysOf_addTo]; exact hnd
    have hres2 : ∀ o2 ∈ os2,
        ∃ w, cvs.find? (fun u => jsIncludes o2.text u) = some w ∧
          hasKey (addTo sc v (rankPoints n)) w = true := by
      intro o2 ho2
      obtain ⟨w, hw, hkw⟩ := hres o2 (List.mem_cons_of_mem o ho2)
      exact ⟨w, hw, by rw [hasKey_addTo]; exact hkw⟩
    rw [enumFrom_cons, List.foldl_cons, hstep,
      ih (n + 1) (addTo sc v (rankPoints n)) hnd2 hres2,
      scoreSum_addTo sc v (rankPoints n) hnd hk]
    rw [List.length_cons, List.range_succ_eq_map]
    have hfe : ((fun j => rankPoints (n + j)) ∘ Nat.succ) =
        (fun j => rankPoints (n + 1 + j)) := by
      funext j
      simp only [Function.comp_apply]
      congr 1
      omega
    simp only [List.map_cons, List.map_map, List.sum_cons]
    rw [hfe]
    have hn0 : n + 0 = n := by omega
    rw [hn0]
    ring

theorem rankFold_scoreOf (cvs : List String) {os : List Phase2Option}
    {vs : List String}
    (hf : List.Forall₂
      (fun o v => cvs.find? (fun w => jsIncludes o.text w) = some v) os vs) :
    ∀ (n : Nat) (sc : ValueScores),
      (keysOf sc).Nodup → vs.Nodup →
      (∀ v ∈ vs, hasKey sc v = true) →
      (∀ i (hi : i < vs.length),
          scoreOf ((List.enumFrom n os).foldl (rankStep cvs) sc)
              (vs.get ⟨i, hi⟩) =
            scoreOf sc (vs.get ⟨i, hi⟩) + rankPoints (n + i)) ∧
      (∀ w, w ∉ vs →
          scoreOf ((List.enumFrom n os).foldl (rankStep cvs) sc) w =
            scoreOf sc w) := by
  induction hf with
  | nil =>
    intro n sc _ _ _
    refine ⟨fun i hi => absurd hi (by simp), fun w _ => by simp [List.enumFrom]⟩
  | @cons o v os2 vs2 hov hrest ih =>
    intro n sc hnd hvnd hk
    have hkv : hasKey sc v = true := hk v (List.mem_cons_self v vs2)
    have hstep : rankStep cvs sc (n, o) = addTo sc v (rankPoints n) := by
      simp [rankStep, hov, hkv]
    have hnd2 : (keysOf (addTo sc v (rankPoints n))).Nodup := by
      rw [keysOf_addTo]; exact hnd
    have hvnd2 : vs2.Nodup := (List.nodup_cons.mp hvnd).2
    have hvnotmem : v ∉ vs2 := (List.nodup_cons.mp hvnd).1
    have hk2 : ∀ u ∈ vs2, hasKey (addTo sc v (rankPoints n)) u = true := by
      intro u hu
      rw [hasKey_addTo]
      exact hk u (List.mem_cons_of_mem v hu)
    obtain ⟨ihget, ihout⟩ := ih (n + 1) (addTo sc v (rankPoints n)) hnd2 hvnd2 hk2
    simp only [enumFrom_cons, List.foldl_cons, hstep]
    constructor
    · intro i hi
      cases i with
      | zero =>
        have hget : ((v :: vs2).get ⟨0, hi⟩) = v := rfl
        rw [hget, ihout v hvnotmem, scoreOf_addTo_self sc v (rankPoints n) hkv]
        have : n + 0 = n := by omega
        rw [this]
      | succ j =>
        have hj : j < vs2.length := by
          simpa [Nat.succ_lt_succ_iff] using hi
        have hget : ((v :: vs2).get ⟨j + 1, hi⟩) = vs2.get ⟨j, hj⟩ := rfl
        have hne : vs2.get ⟨j, hj⟩ ≠ v := by
          intro hh
          exact hvnotmem (hh ▸ List.get_mem vs2 j hj)
        rw [hget, ihget j hj, scoreOf_addTo_ne sc v _ (rankPoints n) hne]
        have : n + 1 + j = n + (j + 1) := by omega
        rw [this]
    · intro w hw
      have hw2 : w ∉ vs2 := fun hh => hw (List.mem_cons_of_mem v hh)
      have hwv : w ≠ v := fun hh => hw (hh ▸ List.mem_cons_self v vs2)
      rw [ihout w hw2, scoreOf_addTo_ne sc v w (rankPoints n) hwv]

theorem setCurrentQuestion_preserves (P1 : Nat) (qs : List Question)
    (t : QuizState) :
    (setCurrentQuestion P1 qs t).valueScores = t.valueScores ∧
    (setCurrentQuestion P1 qs t).quizHistory = t.quizHistory ∧
    (setCurrentQuestion P1 qs t).currentQuestionIndex =
      t.currentQuestionIndex ∧
    (setCurrentQuestion P1 qs t).quizPhase = t.quizPhase ∧
    (setCurrentQuestion P1 qs t).retryPossible = t.retryPossible ∧
    (setCurrentQuestion P1 qs t).isLoading = t.isLoading ∧
    (setCurrentQuestion P1 qs t).currentPhase2Question =
      t.currentPhase2Question := by
  unfold setCurrentQuestion
  split
  · simp
  · split
    · simp
    · split
      · simp
      · simp

theorem handleAnswer_accepted (P1 TOTAL : Nat) (qs : List Question)
    (now : Nat) (s : QuizState) (sel : SelectedOption) (q : Question)
    (hq : s.currentQuestion = some q) (hload : s.isLoading = false)
    (hretry : s.retryPossible = false) :
    (handleAnswer P1 TOTAL qs now s sel).valueScores =
        applyScoring q sel s.valueScores ∧
    (handleAnswer P1 TOTAL qs now s sel).quizHistory =
        s.quizHistory ++
          [{ questionId := q.id, questionText := q.text,
             questionType := q.qtype, answer := (answerPayloadOf q sel).1,
             valuesInvolved := (answerPayloadOf q sel).2,
             timestamp := now }] ∧
    (handleAnswer P1 TOTAL qs now s sel).currentQuestionIndex =
        s.currentQuestionIndex + 1 := by
  unfold handleAnswer
  rw [hq]
  simp only [hload, hretry, Bool.or_self, Bool.false_eq_true, if_false]
  split
  · refine ⟨?_, ?_, ?_⟩ <;>
      simp [setCurrentQuestion_preserves]
  · split
    · refine ⟨?_, ?_, ?_⟩ <;> simp
    · refine ⟨?_, ?_, ?_⟩ <;> simp

theorem scoreOf_const_zero (l : List String) (v : String) (hv : v ∈ l) :
    scoreOf (l.map fun u => (u, (0 : Int))) v = 0 := by
  induction l with
  | nil => cases hv
  | cons u t ih =>
    rw [List.map_cons, scoreOf_cons]
    by_cases h : u == v
    · simp [h]
    · have hvt : v ∈ t := by
        rcases List.mem_cons.mp hv with h1 | h1
        · exact absurd (beq_iff_eq.mpr h1.symm) h
        · exact h1
      simp [h, ih hvt]

/-- C9: the tally produced by `initializeScores` (used at quiz start and
by `resetQuiz`) maps every one of the 52 catalog values to 0, contains
exactly 52 entries, and contains no key outside the catalog. -/
theorem initialize_scores_catalog :
    initializeScores.length = 52 ∧
    PROFESSIONAL_VALUES.length = 52 ∧
    keysOf initializeScores = PROFESSIONAL_VALUES ∧
    (∀ v ∈ PROFESSIONAL_VALUES, scoreOf initializeScores v = 0) ∧
    (∀ p ∈ initializeScores, p.1 ∈ PROFESSIONAL_VALUES ∧ p.2 = 0) ∧
    resetQuiz.valueScores = initializeScores := by
  refine ⟨rfl, rfl, ?_, ?_, ?_, rfl⟩
  · rfl
  · intro v hv
    exact scoreOf_const_zero PROFESSIONAL_VALUES v hv
  · intro p hp
    simp only [initializeScores, List.mem_map] at hp
    obtain ⟨u, hu, rfl⟩ := hp
    exact ⟨hu, rfl⟩

/-- C9 witness: the catalog has 52 entries and a concrete catalog value
starts at 0. -/
theorem initialize_scores_catalog_witness :
    scoreOf initializeScores "Autonomy" = 0 ∧
    scoreOf initializeScores "Security" = 0 :=
  ⟨initialize_scores_catalog.2.2.2.1 "Autonomy" (by decide),
   initialize_scores_catalog.2.2.2.1 "Security" (by decide)⟩

/-- C8: persisting the snapshot of any orchestrator state and restoring
it as done at startup reproduces the identical phase (via its store
string, which is injective over the phase enum), tally, position, and
history. -/
theorem snapshot_roundtrip (s : QuizState) :
    restoredPhase (persistSnapshot s) = s.quizPhase.toStoreString ∧
    restoredScores (persistSnapshot s) = s.valueScores ∧
    restoredIndex (persistSnapshot s) = s.currentQuestionIndex ∧
    restoredHistory (persistSnapshot s) = s.quizHistory ∧
    Function.Injective QuizPhase.toStoreString := by
  refine ⟨?_, rfl, rfl, rfl, ?_⟩
  · unfold restoredPhase persistSnapshot
    cases h : s.quizPhase <;> simp [QuizPhase.toStoreString]
  · intro a b h
    cases a <;> cases b <;> first
      | rfl
      | exact absurd h (by decide)

/-- C5 counterexample: a payload with `ranking` type, only 2 options,
and a duplicated compared value passes the receipt validation of both
versions of the generate-question handler, although it violates the
claimed receipt contract. -/
theorem generated_question_contract_counterexample :
    validateGeneratedQuestion exBadGeneratedQuestion = true ∧
    validateGeneratedQuestionLegacy exBadGeneratedQuestion = true ∧
    questionContractOk exBadGeneratedQuestion = false ∧
    ¬ exBadGeneratedQuestion.values_being_compared.Nodup := by
  refine ⟨by decide, by decide, by decide, by decide⟩

/-- C5 (amended): on receipt the schema-version handler rejects a
generated question exactly when some entry of `values_being_compared`
is outside the catalog; the earlier handler additionally enforces only
type membership in the enum and a lower bound of 2 on both array
lengths.  Option-count-per-type and duplicate-freedom are not checked
on receipt. -/
theorem generated_question_receipt_validation
    (p : GeneratedQuestionPayload) :
    (validateGeneratedQuestion p = true ↔
      ∀ v ∈ p.values_being_compared, v ∈ PROFESSIONAL_VALUES) ∧
    (validateGeneratedQuestionLegacy p = true →
      (p.qtype = "forced_choice" ∨ p.qtype = "ranking") ∧
      2 ≤ p.options.length ∧ 2 ≤ p.values_being_compared.length) := by
  constructor
  · unfold validateGeneratedQuestion
    simp [List.all_eq_true]
  · unfold validateGeneratedQuestionLegacy
    intro h
    simp only [Bool.and_eq_true, decide_eq_true_eq, Bool.or_eq_true,
      beq_iff_eq] at h
    exact ⟨h.1.1.2, h.1.2, h.2⟩

/-- C5 witness: the amended validation behavior at a concrete accepted
payload. -/
theorem generated_question_receipt_validation_witness :
    (∀ v ∈ exBadGeneratedQuestion.values_being_compared,
        v ∈ PROFESSIONAL_VALUES) ∧
    ((exBadGeneratedQuestion.qtype = "forced_choice" ∨
        exBadGeneratedQuestion.qtype = "ranking") ∧
      2 ≤ exBadGeneratedQuestion.options.length ∧
      2 ≤ exBadGeneratedQuestion.values_being_compared.length) :=
  ⟨(generated_question_receipt_validation exBadGeneratedQuestion).1.mp
      (by decide),
   (generated_question_receipt_validation exBadGeneratedQuestion).2
      (by decide)⟩

/-- C6 counterexample: a payload of 5 identical catalog values passes
the evaluation-response validation although the claimed contract
requires 5 distinct values. -/
theorem evaluation_distinctness_counterexample :
    validateEvaluationResult (some exBadTop5) = true ∧
    evaluationContractOk (some exBadTop5) = false ∧
    ¬ exBadTop5.Nodup := by
  refine ⟨by decide, by decide, by decide⟩

/-- C6 (amended): a successful evaluation response holds exactly 5
values, each a catalog member (an out-of-catalog value or a wrong count
fails validation); the history must be non-empty for the call to be
accepted; and the evaluation result and review text are not part of the
persisted snapshot. -/
theorem evaluation_result_validation :
    (∀ t5 : List String,
        validateEvaluationResult (some t5) = true ↔
          t5.length = 5 ∧ ∀ v ∈ t5, v ∈ PROFESSIONAL_VALUES) ∧
    validateEvaluationResult none = false ∧
    (∀ history : List AnswerRecord,
        evaluationRequestAccepted history = true ↔ history ≠ []) ∧
    (∀ (s : QuizState) (t : Option (List String)) (r : Option String),
        persistSnapshot { s with evaluatedTop5 := t, reviewText := r } =
          persistSnapshot s) := by
  refine ⟨?_, rfl, ?_, ?_⟩
  · intro t5
    unfold validateEvaluationResult
    simp [List.all_eq_true]
  · intro history
    unfold evaluationRequestAccepted
    simp [List.isEmpty_iff]
  · intro s t r
    rfl

theorem determine_idle_of_retry (P1 TOTAL : Nat) (qs : List Question)
    (s : QuizState) (hr : s.retryPossible = true) :
    (determinePhaseAndQuestion P1 TOTAL qs s).2 = .idle := by
  unfold determinePhaseAndQuestion
  simp only [hr, Bool.not_true, Bool.and_false, Bool.false_eq_true,
    if_false]
  cases hp : s.quizPhase <;>
    simp only [hp] <;>
    first
      | rfl
      | (split <;> first | rfl | (split <;> rfl))

/-- C3: a retryable failure of a remote call (e.g. a rate-limit failure
of the phase-2 fetch, or any failure of the evaluation call) leaves
phase, position, tally, and history unchanged and arms the retry flag
with loading cleared; the orchestrator dispatch never starts any remote
action while the retry flag is armed, so a retry happens only through
an explicit user action; and a subsequent successful retry of the fetch
installs a question while the position, tally, and history stay at the
same values. -/
theorem retryable_failure_preserves_state (P1 TOTAL : Nat)
    (qs : List Question) (s : QuizState) (status : Nat) (msg : String)
    (q : Question) (rv : FetchOutcome (Option String)) :
    (s.quizPhase = .phase2 →
      (fetchNextPhase2Question P1 qs (.err status msg) s).quizPhase =
          s.quizPhase ∧
      (fetchNextPhase2Question P1 qs (.err status msg) s).currentQuestionIndex =
          s.currentQuestionIndex ∧
      (fetchNextPhase2Question P1 qs (.err status msg) s).valueScores =
          s.valueScores ∧
      (fetchNextPhase2Question P1 qs (.err status msg) s).quizHistory =
          s.quizHistory ∧
      (fetchNextPhase2Question P1 qs (.err status msg) s).retryPossible =
          true ∧
      (fetchNextPhase2Question P1 qs (.err status msg) s).isLoading =
          false) ∧
    ((evaluateAnswers (.err status msg) rv s).quizPhase = s.quizPhase ∧
      (evaluateAnswers (.err status msg) rv s).currentQuestionIndex =
          s.currentQuestionIndex ∧
      (evaluateAnswers (.err status msg) rv s).valueScores =
          s.valueScores ∧
      (evaluateAnswers (.err status msg) rv s).quizHistory =
          s.quizHistory ∧
      (evaluateAnswers (.err status msg) rv s).retryPossible = true) ∧
    (s.retryPossible = true →
      (determinePhaseAndQuestion P1 TOTAL qs s).2 = .idle) ∧
    (s.quizPhase = .phase2 →
      (fetchNextPhase2Question P1 qs (.ok q) s).currentPhase2Question =
          some q ∧
      (fetchNextPhase2Question P1 qs (.ok q) s).currentQuestionIndex =
          s.currentQuestionIndex ∧
      (fetchNextPhase2Question P1 qs (.ok q) s).valueScores =
          s.valueScores ∧
      (fetchNextPhase2Question P1 qs (.ok q) s).quizHistory =
          s.quizHistory) := by
  refine ⟨?_, ?_, fun hr => determine_idle_of_retry P1 TOTAL qs s hr, ?_⟩
  · intro h
    simp [fetchNextPhase2Question, h]
  · simp [evaluateAnswers]
  · intro h
    simp only [fetchNextPhase2Question, h, bne_self_eq_false,
      Bool.false_eq_true, if_false]
    refine ⟨?_, ?_, ?_, ?_⟩ <;>
      simp [(setCurrentQuestion_preserves P1 qs _).1,
            (setCurrentQuestion_preserves P1 qs _).2.1,
            (setCurrentQuestion_preserves P1 qs _).2.2.1,
            (setCurrentQuestion_preserves P1 qs _).2.2.2.2.2.2]

/-- C3 witness: a concrete rate-limit failure in phase 2 leaves the
phase unchanged and arms the retry flag, and a state with the retry
flag armed dispatches no remote action. -/
theorem retryable_failure_preserves_state_witness :
    (fetchNextPhase2Question 5 [] (.err 429 "rate limited")
        exPhase2State).quizPhase = exPhase2State.quizPhase ∧
    (fetchNextPhase2Question 5 [] (.err 429 "rate limited")
        exPhase2State).retryPossible = true ∧
    (determinePhaseAndQuestion 5 10 []
        { exPhase2State with retryPossible := true }).2 = .idle :=
  ⟨((retryable_failure_preserves_state 5 10 [] exPhase2State 429
      "rate limited" exForcedQuestion (.err 429 "rate limited")).1
        (by rfl)).1,
   ((retryable_failure_preserves_state 5 10 [] exPhase2State 429
      "rate limited" exForcedQuestion (.err 429 "rate limited")).1
        (by rfl)).2.2.2.2.1,
   (retryable_failure_preserves_state 5 10 []
      { exPhase2State with retryPossible := true } 429 "rate limited"
      exForcedQuestion (.err 429 "rate limited")).2.2.1 (by rfl)⟩

/-- C2: in the evaluating phase, the phase advances to `results` exactly
when the evaluation call succeeds with a valid payload and then the
review call succeeds with a valid payload; a failure of either call
leaves the phase where it was with the retry flag armed (and after an
evaluation failure the review text is untouched, i.e. the review step
did not run); the review step refuses to run when no evaluation result
is held; and when the evaluation result is already held and the review
text is missing, both the reactive dispatch and the retry button run
only the review step. -/
theorem evaluating_sequencing (P1 TOTAL : Nat) (qs : List Question)
    (s : QuizState) (t5 : List String) (txt : String) (status : Nat)
    (msg : String) (rv : FetchOutcome (Option String)) :
    (t5.length = 5 → txt ≠ "" →
      (evaluateAnswers (.ok (some t5)) (.ok (some txt)) s).quizPhase =
          .results ∧
      (evaluateAnswers (.ok (some t5)) (.ok (some txt)) s).evaluatedTop5 =
          some t5 ∧
      (evaluateAnswers (.ok (some t5)) (.ok (some txt)) s).reviewText =
          some txt ∧
      (evaluateAnswers (.ok (some t5)) (.ok (some txt)) s).retryPossible =
          false) ∧
    ((evaluateAnswers (.err status msg) rv s).quizPhase = s.quizPhase ∧
      (evaluateAnswers (.err status msg) rv s).retryPossible = true ∧
      (evaluateAnswers (.err status msg) rv s).reviewText =
        s.reviewText ∧
      (evaluateAnswers (.err status msg) rv s).evaluatedTop5 =
        s.evaluatedTop5) ∧
    (t5.length = 5 →
      (evaluateAnswers (.ok (some t5)) (.err status msg) s).quizPhase =
          s.quizPhase ∧
      (evaluateAnswers (.ok (some t5)) (.err status msg) s).retryPossible =
          true ∧
      (evaluateAnswers (.ok (some t5)) (.err status msg) s).evaluatedTop5 =
          some t5 ∧
      (evaluateAnswers (.ok (some t5)) (.err status msg) s).reviewText =
          s.reviewText) ∧
    (s.evaluatedTop5 = none →
      (generateReviewText rv s).quizPhase = s.quizPhase ∧
      (generateReviewText rv s).retryPossible = true ∧
      (generateReviewText rv s).reviewText = s.reviewText) ∧
    (s.evaluatedTop5.isSome = true → s.reviewText = none →
      retryActionFor s = .runReview ∧
      (s.quizPhase = .evaluating → s.isLoading = false →
        s.retryPossible = false →
        (determinePhaseAndQuestion P1 TOTAL qs s).2 = .runReview)) := by
  refine ⟨?_, ?_, ?_, ?_, ?_⟩
  · intro h5 htxt
    simp [evaluateAnswers, validTop5Payload, h5, generateReviewText,
      jsTruthy, htxt]
  · simp [evaluateAnswers]
  · intro h5
    simp [evaluateAnswers, validTop5Payload, h5, generateReviewText]
  · intro hnone
    simp [generateReviewText, hnone]
  · intro hsome hrev
    constructor
    · simp [retryActionFor, hsome, hrev, jsTruthy]
    · intro hph hl hr
      simp [determinePhaseAndQuestion, hph, hl, hr, hsome, hrev,
        jsTruthy]

/-- C2 witness: concrete success advances to results; a concrete
evaluation failure arms retry; with the evaluation result held and the
review missing the retry dispatch targets only the review step. -/
theorem evaluating_sequencing_witness :
    (evaluateAnswers (.ok (some exTop5))
        (.ok (some "You value independence and stability."))
        exEvalState).quizPhase = .results ∧
    (evaluateAnswers (.err 429 "limited") (.ok (some "x"))
        exEvalState).retryPossible = true ∧
    retryActionFor { exEvalState with evaluatedTop5 := some exTop5 } =
      .runReview :=
  ⟨((evaluating_sequencing 5 10 [] exEvalState exTop5
      "You value independence and stability." 429 "limited"
      (.ok (some "x"))).1 (by decide) (by decide)).1,
   ((evaluating_sequencing 5 10 [] exEvalState exTop5
      "You value independence and stability." 429 "limited"
      (.ok (some "x"))).2.1).2.1,
   ((evaluating_sequencing 5 10 []
      { exEvalState with evaluatedTop5 := some exTop5 } exTop5 "t" 429
      "m" (.ok (some "x"))).2.2.2.2 (by rfl) (by rfl)).1⟩

/-- C7: an answer action is a strict no-op while no question is held,
a remote call is in flight, or a retryable error is pending; an
accepted answer advances the position by exactly one and appends
exactly one history record, so any presented position is scored at most
once along an execution. -/
theorem answer_scored_at_most_once (P1 TOTAL : Nat) (qs : List Question)
    (now : Nat) (s : QuizState) (sel : SelectedOption) :
    ((s.currentQuestion = none ∨ s.isLoading = true ∨
        s.retryPossible = true) →
      handleAnswer P1 TOTAL qs now s sel = s) ∧
    (∀ q, s.currentQuestion = some q → s.isLoading = false →
      s.retryPossible = false →
      (handleAnswer P1 TOTAL qs now s sel).currentQuestionIndex =
        s.currentQuestionIndex + 1 ∧
      (handleAnswer P1 TOTAL qs now s sel).quizHistory.length =
        s.quizHistory.length + 1) := by
  constructor
  · intro h
    unfold handleAnswer
    rcases h with h | h | h
    · rw [h]
    · cases hq : s.currentQuestion <;> simp [h]
    · cases hq : s.currentQuestion <;> simp [h]
  · intro q hq hl hr
    obtain ⟨-, h2, h3⟩ :=
      handleAnswer_accepted P1 TOTAL qs now s sel q hq hl hr
    refine ⟨h3, ?_⟩
    rw [h2]
    simp

/-- C7 witness: a concrete loading state ignores the answer, and a
concrete presented question advances the position by one. -/
theorem answer_scored_at_most_once_witness :
    handleAnswer 5 10 [] 0 { exForcedState with isLoading := true }
        (.p2 ⟨"Autonomy"⟩) = { exForcedState with isLoading := true } ∧
    (handleAnswer 5 10 [] 0 exForcedState
        (.p2 ⟨"Autonomy"⟩)).currentQuestionIndex =
      exForcedState.currentQuestionIndex + 1 :=
  ⟨(answer_scored_at_most_once 5 10 [] 0
      { exForcedState with isLoading := true } (.p2 ⟨"Autonomy"⟩)).1
      (Or.inr (Or.inl rfl)),
   ((answer_scored_at_most_once 5 10 [] 0 exForcedState
      (.p2 ⟨"Autonomy"⟩)).2 exForcedQuestion rfl rfl rfl).1⟩

/-- C10: when a forced-choice answer's chosen text contains none of the
compared values, no value receives +2, but the first entry of
`values_being_compared` still has its score decreased by exactly 1 —
the tally is not left unchanged in this edge case. -/
theorem forced_choice_unresolved_match (P1 TOTAL : Nat)
    (qs : List Question) (now : Nat) (s : QuizState) (q : Question)
    (o : Phase2Option) (v0 : String) (rest : List String)
    (hq : s.currentQuestion = some q) (hl : s.isLoading = false)
    (hr : s.retryPossible = false) (ht : q.qtype = .forced_choice)
    (hcv : q.values_being_compared = v0 :: rest)
    (hnm : ∀ v ∈ q.values_being_compared, jsIncludes o.text v = false)
    (hk : hasKey s.valueScores v0 = true) :
    scoreOf (handleAnswer P1 TOTAL qs now s (.p2 o)).valueScores v0 =
      scoreOf s.valueScores v0 - 1 ∧
    (∀ w, w ≠ v0 →
      scoreOf (handleAnswer P1 TOTAL qs now s (.p2 o)).valueScores w =
        scoreOf s.valueScores w) := by
  obtain ⟨h1, -, -⟩ :=
    handleAnswer_accepted P1 TOTAL qs now s (.p2 o) q hq hl hr
  have hchosen :
      q.values_being_compared.find? (fun v => jsIncludes o.text v) =
        none := by
    rw [List.find?_eq_none]
    intro x hx
    simp [hnm x hx]
  have hother :
      q.values_being_compared.find?
          (fun v => (none : Option String) != some v) = some v0 := by
    rw [hcv]
    rfl
  rw [h1]
  simp only [applyScoring, ht, hchosen, hother, hk, if_true]
  constructor
  · rw [scoreOf_addTo_self s.valueScores v0 (-1) hk]
    omega
  · intro w hw
    exact scoreOf_addTo_ne s.valueScores v0 w (-1) hw

/-- C10 witness: a concrete forced-choice answer whose text echoes no
compared value still decrements the first compared value. -/
theorem forced_choice_unresolved_match_witness :
    scoreOf (handleAnswer 5 10 [] 0 exNoMatchState
        (.p2 ⟨"A calm office"⟩)).valueScores "Autonomy" =
      scoreOf exNoMatchState.valueScores "Autonomy" - 1 :=
  (forced_choice_unresolved_match 5 10 [] 0 exNoMatchState
    exNoMatchQuestion ⟨"A calm office"⟩ "Autonomy" ["Security"] rfl rfl
    rfl rfl rfl (by decide) (by decide)).1

/-- C1: a forced-choice answer whose chosen text resolves by containment
to exactly one of the two compared values gives that value +2, gives
the other compared value -1, leaves every other value unchanged, and
appends exactly one history record. -/
theorem forced_choice_scores_and_history (P1 TOTAL : Nat)
    (qs : List Question) (now : Nat) (s : QuizState) (q : Question)
    (o : Phase2Option) (a b : String)
    (hq : s.currentQuestion = some q) (hl : s.isLoading = false)
    (hr : s.retryPossible = false) (ht : q.qtype = .forced_choice)
    (hcv : q.values_being_compared = [a, b]) (hab : a ≠ b)
    (hka : hasKey s.valueScores a = true)
    (hkb : hasKey s.valueScores b = true)
    (hres : (jsIncludes o.text a = true ∧ jsIncludes o.text b = false) ∨
            (jsIncludes o.text a = false ∧ jsIncludes o.text b = true)) :
    scoreOf (handleAnswer P1 TOTAL qs now s (.p2 o)).valueScores
        (if jsIncludes o.text a then a else b) =
      scoreOf s.valueScores (if jsIncludes o.text a then a else b) + 2 ∧
    scoreOf (handleAnswer P1 TOTAL qs now s (.p2 o)).valueScores
        (if jsIncludes o.text a then b else a) =
      scoreOf s.valueScores (if jsIncludes o.text a then b else a) - 1 ∧
    (∀ w, w ≠ a → w ≠ b →
      scoreOf (handleAnswer P1 TOTAL qs now s (.p2 o)).valueScores w =
        scoreOf s.valueScores w) ∧
    (handleAnswer P1 TOTAL qs now s (.p2 o)).quizHistory.length =
      s.quizHistory.length + 1 := by
  obtain ⟨h1, h2, -⟩ :=
    handleAnswer_accepted P1 TOTAL qs now s (.p2 o) q hq hl hr
  have hlen : (handleAnswer P1 TOTAL qs now s (.p2 o)).quizHistory.length =
      s.quizHistory.length + 1 := by
    rw [h2]; simp
  rcases hres with ⟨hia, hib⟩ | ⟨hia, hib⟩
  · have hchosen :
        q.values_being_compared.find? (fun v => jsIncludes o.text v) =
          some a := by
      rw [hcv]
      simp [List.find?_cons, hia]
    have hother :
        q.values_being_compared.find?
            (fun v => (some a : Option String) != some v) = some b := by
      rw [hcv]
      simp [List.find?_cons, hab]
    have hkb2 : hasKey (addTo s.valueScores a 2) b = true := by
      rw [hasKey_addTo]; exact hkb
    rw [h1]
    simp only [applyScoring, ht, hchosen, hother, hka, hkb2, if_true,
      hia, if_pos]
    refine ⟨?_, ?_, ?_, hlen⟩
    · rw [scoreOf_addTo_ne (addTo s.valueScores a 2) b a (-1) hab,
        scoreOf_addTo_self s.valueScores a 2 hka]
    · rw [scoreOf_addTo_self (addTo s.valueScores a 2) b (-1) hkb2,
        scoreOf_addTo_ne s.valueScores a b 2 (Ne.symm hab)]
      omega
    · intro w hwa hwb
      rw [scoreOf_addTo_ne (addTo s.valueScores a 2) b w (-1) hwb,
        scoreOf_addTo_ne s.valueScores a w 2 hwa]
  · have hchosen :
        q.values_being_compared.find? (fun v => jsIncludes o.text v) =
          some b := by
      rw [hcv]
      simp [List.find?_cons, hia, hib]
    have hother :
        q.values_being_compared.find?
            (fun v => (some b : Option String) != some v) = some a := by
      rw [hcv]
      simp [List.find?_cons, Ne.symm hab]
    have hka2 : hasKey (addTo s.valueScores b 2) a = true := by
      rw [hasKey_addTo]; exact hka
    rw [h1]
    simp only [applyScoring, ht, hchosen, hother, hkb, hka2, if_true,
      hia, Bool.false_eq_true, if_false]
    refine ⟨?_, ?_, ?_, hlen⟩
    · rw [scoreOf_addTo_ne (addTo s.valueScores b 2) a b (-1)
        (Ne.symm hab), scoreOf_addTo_self s.valueScores b 2 hkb]
    · rw [scoreOf_addTo_self (addTo s.valueScores b 2) a (-1) hka2,
        scoreOf_addTo_ne s.valueScores b a 2 hab]
      omega
    · intro w hwa hwb
      rw [scoreOf_addTo_ne (addTo s.valueScores b 2) a w (-1) hwa,
        scoreOf_addTo_ne s.valueScores b w 2 hwb]

/-- C1 witness: the concrete scenario of the spec — all 52 values at 0,
a forced choice between Autonomy and Security answered with Autonomy
gives Autonomy 2, Security -1, leaves another value unchanged, and
grows the history to length 1. -/
theorem forced_choice_scores_and_history_witness :
    scoreOf (handleAnswer 5 10 [] 0 exForcedState
        (.p2 ⟨"Autonomy"⟩)).valueScores "Autonomy" = 2 ∧
    scoreOf (handleAnswer 5 10 [] 0 exForcedState
        (.p2 ⟨"Autonomy"⟩)).valueScores "Security" = -1 ∧
    scoreOf (handleAnswer 5 10 [] 0 exForcedState
        (.p2 ⟨"Autonomy"⟩)).valueScores "Wealth" =
      scoreOf exForcedState.valueScores "Wealth" ∧
    (handleAnswer 5 10 [] 0 exForcedState
        (.p2 ⟨"Autonomy"⟩)).quizHistory.length = 1 := by
  have h := forced_choice_scores_and_history 5 10 [] 0 exForcedState
    exForcedQuestion ⟨"Autonomy"⟩ "Autonomy" "Security" rfl rfl rfl rfl
    rfl (by decide) (by decide) (by decide)
    (Or.inl ⟨by decide, by decide⟩)
  have hif : jsIncludes "Autonomy" "Autonomy" = true := by decide
  have hA0 : scoreOf exForcedState.valueScores "Autonomy" = 0 := by
    decide
  have hS0 : scoreOf exForcedState.valueScores "Security" = 0 := by
    decide
  refine ⟨?_, ?_, ?_, ?_⟩
  · have h1 := h.1
    simp only [hif, if_true] at h1
    rw [h1, hA0]
    rfl
  · have h2 := h.2.1
    simp only [hif, if_true] at h2
    rw [h2, hS0]
    rfl
  · exact h.2.2.1 "Wealth" (by decide) (by decide)
  · have h4 := h.2.2.2
    rw [h4]
    rfl

theorem length_insertByRank (p : Nat × Phase2Option) :
    ∀ m : List (Nat × Phase2Option),
      (insertByRank p m).length = m.length + 1
  | [] => rfl
  | q :: qs => by
    unfold insertByRank
    split
    · simp
    · simp [length_insertByRank p qs]

theorem length_sortByRank :
    ∀ m : List (Nat × Phase2Option), (sortByRank m).length = m.length
  | [] => rfl
  | p :: ps => by
    unfold sortByRank
    rw [length_insertByRank, length_sortByRank ps]
    rfl

theorem forall₂_exists_right {α β : Type} {R : α → β → Prop} :
    ∀ {l1 : List α} {l2 : List β}, List.Forall₂ R l1 l2 →
      ∀ a ∈ l1, ∃ b ∈ l2, R a b := by
  intro l1 l2 h
  induction h with
  | nil => intro a ha; cases ha
  | cons hab _ ih =>
    intro a ha
    rcases List.mem_cons.mp ha with rfl | ha2
    · exact ⟨_, List.mem_cons_self _ _, hab⟩
    · obtain ⟨b, hb, hr⟩ := ih a ha2
      exact ⟨b, List.mem_cons_of_mem _ hb, hr⟩

/-- C4: a ranking answer is submitted only as a full ordering
(`handleRankSelect` emits an answer only when every rank is assigned,
and the emitted ordering has exactly as many options as the question);
for a full ordering in which the option at 0-based position `i`
(1-based rank `r = i + 1`) resolves to the distinct catalog key
`vs.get i`, that key gains exactly `max(0, 4 - r)` points
(`rankPoints i`), every unresolved value is unchanged, and the total
score increase equals the sum of `max(0, 4 - r)` over `r = 1..k`; the
answer also appends exactly one history record. -/
theorem ranking_full_order_scoring (P1 TOTAL : Nat) (qs : List Question)
    (now : Nat) (s : QuizState) (q : Question) (os : List Phase2Option)
    (vs : List String)
    (hq : s.currentQuestion = some q) (hl : s.isLoading = false)
    (hr : s.retryPossible = false) (ht : q.qtype = .ranking)
    (hf : List.Forall₂
      (fun o v => q.values_being_compared.find?
        (fun w => jsIncludes o.text w) = some v) os vs)
    (hnd : (keysOf s.valueScores).Nodup) (hvnd : vs.Nodup)
    (hk : ∀ v ∈ vs, hasKey s.valueScores v = true) :
    (∀ i (hi : i < vs.length),
        scoreOf (handleAnswer P1 TOTAL qs now s (.ranked os)).valueScores
            (vs.get ⟨i, hi⟩) =
          scoreOf s.valueScores (vs.get ⟨i, hi⟩) + rankPoints i) ∧
    (∀ w, w ∉ vs →
        scoreOf (handleAnswer P1 TOTAL qs now s (.ranked os)).valueScores
            w = scoreOf s.valueScores w) ∧
    scoreSum (handleAnswer P1 TOTAL qs now s (.ranked os)).valueScores =
      scoreSum s.valueScores +
        ((List.range os.length).map (fun j => rankPoints j)).sum ∧
    (handleAnswer P1 TOTAL qs now s (.ranked os)).quizHistory.length =
      s.quizHistory.length + 1 ∧
    (∀ (k : Nat) (m : List (Nat × Phase2Option)) (o : Phase2Option)
        (r : Nat) (ros : List Phase2Option),
      (handleRankSelect k m o r).2 = some ros → ros.length = k) := by
  obtain ⟨h1, h2, -⟩ :=
    handleAnswer_accepted P1 TOTAL qs now s (.ranked os) q hq hl hr
  have happly : applyScoring q (.ranked os) s.valueScores =
      (List.enumFrom 0 os).foldl (rankStep q.values_being_compared)
        s.valueScores := by
    simp only [applyScoring, ht, applyRanking]
    rfl
  have hlen : (handleAnswer P1 TOTAL qs now s (.ranked os)).quizHistory.length =
      s.quizHistory.length + 1 := by
    rw [h2]; simp
  obtain ⟨hget, hout⟩ :=
    rankFold_scoreOf q.values_being_compared hf 0 s.valueScores hnd
      hvnd hk
  have hres : ∀ o ∈ os,
      ∃ v, q.values_being_compared.find?
          (fun w => jsIncludes o.text w) = some v ∧
        hasKey s.valueScores v = true := by
    intro o ho
    obtain ⟨v, hv, hrel⟩ := forall₂_exists_right hf o ho
    exact ⟨v, hrel, hk v hv⟩
  have hsum := rankFold_scoreSum q.values_being_compared os 0
    s.valueScores hnd hres
  refine ⟨?_, ?_, ?_, hlen, ?_⟩
  · intro i hi
    have := hget i hi
    rw [h1, happly]
    simpa using this
  · intro w hw
    have := hout w hw
    rw [h1, happly]
    exact this
  · rw [h1, happly, hsum]
    simp
  · intro k m o r ros hros
    unfold handleRankSelect at hros
    dsimp only at hros
    split at hros
    · next hlen2 =>
      have : (sortByRank (upsertRank
          (m.filter (fun p => !(p.2 == o && p.1 != r))) r o)).map
            Prod.snd = ros := by
        simpa using hros
      rw [← this]
      rw [List.length_map, length_sortByRank]
      simpa using hlen2
    · simp at hros

/-- C4 witness: the concrete scenario — three values ranked
[Balance, Autonomy, Creativity] gain 3, 2, 1 points, and a rank
selection completing all three ranks emits a full 3-option ordering. -/
theorem ranking_full_order_scoring_witness :
    scoreOf (handleAnswer 5 10 [] 0 exRankState
        (.ranked [⟨"Balance"⟩, ⟨"Autonomy"⟩, ⟨"Creativity"⟩])).valueScores
        "Balance" = 3 ∧
    scoreOf (handleAnswer 5 10 [] 0 exRankState
        (.ranked [⟨"Balance"⟩, ⟨"Autonomy"⟩, ⟨"Creativity"⟩])).valueScores
        "Autonomy" = 2 ∧
    scoreOf (handleAnswer 5 10 [] 0 exRankState
        (.ranked [⟨"Balance"⟩, ⟨"Autonomy"⟩, ⟨"Creativity"⟩])).valueScores
        "Creativity" = 1 ∧
    ([⟨"Balance"⟩, ⟨"Autonomy"⟩, ⟨"Creativity"⟩] :
        List Phase2Option).length = 3 := by
  have h := ranking_full_order_scoring 5 10 [] 0 exRankState
    exRankQuestion [⟨"Balance"⟩, ⟨"Autonomy"⟩, ⟨"Creativity"⟩]
    ["Balance", "Autonomy", "Creativity"] rfl rfl rfl rfl
    (.cons (by decide) (.cons (by decide) (.cons (by decide) .nil)))
    (by decide) (by decide) (by decide)
  have hB : scoreOf exRankState.valueScores "Balance" = 0 := by decide
  have hA : scoreOf exRankState.valueScores "Autonomy" = 0 := by decide
  have hC : scoreOf exRankState.valueScores "Creativity" = 0 := by decide
  have hp0 : rankPoints 0 = 3 := by decide
  have hp1 : rankPoints 1 = 2 := by decide
  have hp2 : rankPoints 2 = 1 := by decide
  refine ⟨?_, ?_, ?_, ?_⟩
  · have h0 := h.1 0 (by decide)
    simp only [List.get] at h0
    rw [h0, hB, hp0]
    rfl
  · have h1 := h.1 1 (by decide)
    simp only [List.get] at h1
    rw [h1, hA, hp1]
    rfl
  · have h2 := h.1 2 (by decide)
    simp only [List.get] at h2
    rw [h2, hC, hp2]
    rfl
  · exact h.2.2.2.2 3 [(1, ⟨"Balance"⟩), (2, ⟨"Autonomy"⟩)]
      ⟨"Creativity"⟩ 3 [⟨"Balance"⟩, ⟨"Autonomy"⟩, ⟨"Creativity"⟩]
      (by decide)
